import Mathlib

/-!
Verification development for the discopy quantum-circuit fragment:
shallow embedding of `src/circuit.py` (planar circuits, gates, kets/bras,
normalization, the legacy pytket translation `Circuit.to_tk`/`Circuit.from_tk`)
and of `src/discopy/tk.py` (the quantum translation layer with post-selection).
Phases are modelled as rationals (Python floats; all claims are about exact
factor-of-two arithmetic, which is exact in floating point as well).
-/

/- ## Section 1: gate-level circuits of `src/circuit.py`

A `Circuit` in `circuit.py` is a diagram whose boxes are gates with offsets
(`Circuit.__init__(dom, cod, gates, offsets)`).  The supported gate set is the
one `Circuit.from_tk.gates_from_tk` recognises: parametrised `Rx`, `Rz` and the
named gates `SWAP, CX, H, S, T, X, Y, Z`. -/

inductive TGate where
  | rx (p : ℚ)
  | rz (p : ℚ)
  | swapg
  | cx
  | hg
  | sg
  | tg
  | xg
  | yg
  | zg
  deriving DecidableEq

/-- Number of qubits a gate acts on (`len(gate.dom)`): 2 for `SWAP` and `CX`,
1 for every other generator of the supported gate set. -/
def TGate.arity : TGate → ℕ
  | .swapg => 2
  | .cx => 2
  | _ => 1

/-- A circuit of `circuit.py` restricted to the supported gate set: a width
`n` together with the parallel lists `gates`/`offsets` (zipped). -/
structure GCircuit where
  n : ℕ
  gates : List (TGate × ℕ)
  deriving DecidableEq

/-- Well-formedness of a gate list: every gate fits inside the `n` wires,
i.e. `offset + len(gate.dom) <= n` (what pytket enforces on qubit indices). -/
def GCircuit.wf (c : GCircuit) : Prop :=
  ∀ p ∈ c.gates, p.2 + p.1.arity ≤ c.n

instance (c : GCircuit) : Decidable c.wf := by
  unfold GCircuit.wf; infer_instance

/-- A pytket command as produced/consumed by `circuit.py`: an operation
applied to a list of qubit indices.  The op is carried as the gate it encodes
(`OpType` name plus `get_params()`). -/
structure TkCmdC where
  op : TGate
  qubits : List ℕ
  deriving DecidableEq

/-- A pytket circuit at the `circuit.py` level: `tk.Circuit(n_qubits)` plus
its ordered command list. -/
structure TkCircC where
  nQubits : ℕ
  cmds : List TkCmdC
  deriving DecidableEq

/-- One step of `Circuit.to_tk`: a gate at `off` is emitted on the qubit
indices `off + i for i in range(len(gate.dom))`; `Rx`/`Rz` carry their phase
as the single op parameter, unchanged. -/
def toTkCmd (p : TGate × ℕ) : TkCmdC :=
  ⟨p.1, (List.range p.1.arity).map (fun i => p.2 + i)⟩

/-- `Circuit.to_tk` (circuit.py lines 216-237): a `tk.Circuit(len(self.dom))`
whose commands are the gates in order, each on consecutive qubit indices
starting at its offset. -/
def toTk (c : GCircuit) : TkCircC :=
  ⟨c.n, c.gates.map toTkCmd⟩

/-- The parameter carried by an emitted rotation command (`op.get_params()[0]`),
`none` for parameterless ops.  This is what the doctest of `Circuit.to_tk`
prints. -/
def TGate.tkParam : TGate → Option ℚ
  | .rx p => some p
  | .rz p => some p
  | _ => none

/-- `Circuit.from_tk.gates_from_tk`: maps the op back to a gate; `Rx`/`Rz`
rebuild the rotation from `get_params()[0]`, unchanged; every other supported
name maps to the gate of the same name. -/
def gatesFromTk : TGate → TGate
  | .rx p => .rx p
  | .rz p => .rz p
  | .swapg => .swapg
  | .cx => .cx
  | .hg => .hg
  | .sg => .sg
  | .tg => .tg
  | .xg => .xg
  | .yg => .yg
  | .zg => .zg

/-- The inner loop of `Circuit.from_tk` over `tk_gate.qubits[1:]` (circuit.py
lines 261-273): walks the later qubits with index `i` and running first-qubit
position `i_0`, inserting `SWAP`s to bring non-adjacent qubits together;
`break`s as soon as a qubit is already adjacent (`qubit.index[0] == i_0+i+1`).
Returns the inserted swap layers and the final `i_0`. -/
def adjacencyLoop : List ℕ → ℕ → ℕ → (List (TGate × ℕ)) × ℕ
  | [], _, i0 => ([], i0)
  | q :: rest, i, i0 =>
    if q = i0 + i + 1 then ([], i0)
    else if q < i0 + i + 1 then
      let sw := (List.range (i0 + i - q)).map (fun j => ((TGate.swapg : TGate), q + j))
      let i0' := if q ≤ i0 then i0 - 1 else i0
      let (sws, i0f) := adjacencyLoop rest (i + 1) i0'
      (sw ++ sws, i0f)
    else
      let sw := (List.range (q - i0 + i - 1)).map (fun j => ((TGate.swapg : TGate), q - j - 1))
      let (sws, i0f) := adjacencyLoop rest (i + 1) i0
      (sw ++ sws, i0f)

/-- The per-command body of `Circuit.from_tk`'s main loop: starting from
`i_0 = tk_gate.qubits[0].index[0]`, insert the adjacency swaps, then append
`gates_from_tk(tk_gate)` at the final `i_0`. -/
def fromTkCmd (cmd : TkCmdC) : List (TGate × ℕ) :=
  let (sws, i0f) := adjacencyLoop cmd.qubits.tail 0 cmd.qubits.headI
  sws ++ [(gatesFromTk cmd.op, i0f)]

/-- The accumulated `gates, offsets` lists of `Circuit.from_tk`, built by
appending each command's contribution in order. -/
def fromTkCmds : List TkCmdC → List (TGate × ℕ)
  | [] => []
  | cmd :: rest => fromTkCmd cmd ++ fromTkCmds rest

/-- `Circuit.from_tk` (circuit.py lines 239-277): rebuilds a planar circuit on
`tk_circuit.n_qubits` wires from the command list, introducing `SWAP`s for
non-adjacent qubits. -/
def fromTk (tc : TkCircC) : GCircuit :=
  ⟨tc.nQubits, fromTkCmds tc.cmds⟩

/- ## Section 2: diagrams and the `Circuit.normalize` engine of `src/circuit.py`

Boxes of a circuit diagram are kets, bras and gates; gates carry their flat
numeric array (rational entries suffice for every claim below).  A diagram is
a domain width plus the list of (box, offset) layers. -/

inductive NBox where
  | ket (bits : List Bool)
  | bra (bits : List Bool)
  | ngate (gname : String) (n : ℕ) (arr : List ℚ)
  deriving DecidableEq

/-- Input width of a box (`len(box.dom)`). -/
def NBox.domW : NBox → ℕ
  | .ket _ => 0
  | .bra bits => bits.length
  | .ngate _ n _ => n

/-- Output width of a box (`len(box.cod)`). -/
def NBox.codW : NBox → ℕ
  | .ket bits => bits.length
  | .bra _ => 0
  | .ngate _ n _ => n

/-- Value of `box.array[0]`: for a gate the head of its flat array, for a
basis box 1 exactly when the bitstring is all zeros (the first entry of the
corresponding basis vector).  `Circuit.normalize.remove_scalars` reads this
only on boxes with `dom == cod == PRO()`. -/
def NBox.value : NBox → ℚ
  | .ket bits => if bits.all (fun b => !b) then 1 else 0
  | .bra bits => if bits.all (fun b => !b) then 1 else 0
  | .ngate _ _ arr => arr.headI

/-- A circuit diagram: domain width and layers (box, offset). -/
structure NDiagram where
  dom : ℕ
  layers : List (NBox × ℕ)
  deriving DecidableEq

/-- The `SWAP` gate constant of circuit.py (lines 655-658). -/
def NBox.swapGate : NBox :=
  .ngate "SWAP" 2 [1, 0, 0, 0, 0, 0, 1, 0, 0, 1, 0, 0, 0, 0, 0, 1]

/-- The scan of `Circuit.normalize.remove_scalars` over the layer list: find
the first box with `box.dom == box.cod == PRO()`, remove its layer
(`diagram[:i] >> diagram[i+1:]`) and return the remaining layers together
with `box.array[0]`; `none` when no zero-width box remains. -/
def removeScalarsAux : List (NBox × ℕ) → Option (List (NBox × ℕ) × ℚ)
  | [] => none
  | p :: rest =>
    if p.1.domW = 0 ∧ p.1.codW = 0 then some (rest, p.1.value)
    else (removeScalarsAux rest).map (fun q => (p :: q.1, q.2))

/-- `Circuit.normalize.remove_scalars` on a diagram. -/
def removeScalars (d : NDiagram) : Option (NDiagram × ℚ) :=
  (removeScalarsAux d.layers).map (fun q => (⟨d.dom, q.1⟩, q.2))

/-- Step 1 of `Circuit.normalize` (circuit.py lines 171-178): repeatedly
remove a scalar box, fold its value into the running scalar, and yield the
pair (reduced diagram, scalar) after each removal; stop when `remove_scalars`
returns no number.  The fuel is the layer count: each removal deletes exactly
one layer, so this is the exact number of iterations the `while True` loop
can make before the `break`. -/
def scalarPhaseAux : ℕ → NDiagram → ℚ → List (NDiagram × ℚ) × NDiagram × ℚ
  | 0, d, s => ([], d, s)
  | fuel + 1, d, s =>
    match removeScalars d with
    | none => ([], d, s)
    | some (d', v) =>
      let s' := s * v
      let (ys, df, sf) := scalarPhaseAux fuel d' s'
      ((d', s') :: ys, df, sf)

/-- The scalar-extraction phase of `Circuit.normalize`, started with
`scalar = 1`: the yielded (diagram, scalar) pairs, the residual diagram and
the final accumulated scalar. -/
def scalarPhase (d : NDiagram) : List (NDiagram × ℚ) × NDiagram × ℚ :=
  scalarPhaseAux d.layers.length d 1

/-- Modelled from the spec: the `interchange(i, i-1)` operation of the
diagram base class (`discopy.rigidcat.Diagram`, not under `src/`).  Per
section 4.2 of the spec it acts on adjacent layers, "succeeding only if the
two boxes occupy disjoint wire ranges (interchange law), else fails with
InterchangeError", and diagrams are immutable so a success returns a new
diagram with the two layers reordered (offsets adjusted by the width
difference of the box that slides past). -/
def interchange (d : NDiagram) (i : ℕ) : Option NDiagram :=
  if i = 0 then none else
  match d.layers[i - 1]?, d.layers[i]? with
  | some (b, p), some (c, q) =>
    if q + c.domW ≤ p then
      some ⟨d.dom, (d.layers.set (i - 1) (c, q)).set i (b, p + c.codW - c.domW)⟩
    else if p + b.codW ≤ q then
      some ⟨d.dom, (d.layers.set (i - 1) (c, q + b.domW - b.codW)).set i (b, p)⟩
    else none
  | _, _ => none

/-- `Circuit.normalize.move_ket` (circuit.py lines 158-168), faithfully: the
`try` branch evaluates `diagram.interchange(i, i - 1)` and returns
`diagram, i - 1` — the interchanged diagram is discarded, the unchanged
`diagram` is returned.  On `InterchangerError` the layer at `i` is replaced
by `Id(left[:-1]) @ (box @ Id(left[-1]) >> SWAP) @ Id(right)`, i.e. the box
re-emitted at offset `left - 1` followed by a `SWAP` at the same offset. -/
def moveKet (d : NDiagram) (i : ℕ) : NDiagram × ℕ :=
  match interchange d i with
  | some _ => (d, i - 1)
  | none =>
    match d.layers[i]? with
    | some (b, off) =>
      (⟨d.dom, d.layers.take i
          ++ [(b, off - 1), (NBox.swapGate, off - 1)]
          ++ d.layers.drop (i + 1)⟩, i)
    | none => (d, i)

/- ## Section 3: `Ket.array`, `Bra.array` and evaluation (circuit.py 438-505, 133-137) -/

/-- Kronecker (tensor) product of flat vectors, the `Matrix.tensor` used by
`Ket.array` to chain one-wire basis vectors. -/
def kron : List ℚ → List ℚ → List ℚ
  | [], _ => []
  | x :: xs, ys => ys.map (fun y => x * y) ++ kron xs ys

/-- `Ket.array` (circuit.py lines 438-449): start from the 1-entry matrix
`[1]` and tensor on `[0, 1]` for a 1 bit, `[1, 0]` for a 0 bit, one factor
per bit in order. -/
def ketArray (bits : List Bool) : List ℚ :=
  bits.foldl (fun m b => kron m (if b then [0, 1] else [1, 0])) [1]

/-- `Bra.array` (circuit.py lines 497-505): literally `Ket(*bitstring).array`. -/
def braArray (bits : List Bool) : List ℚ :=
  ketArray bits

/-- Contraction of two flat vectors along their shared index. -/
def dotQ (xs ys : List ℚ) : ℚ :=
  (List.zipWith (fun a b => a * b) xs ys).sum

/-- Modelled from the spec: `Circuit.eval` delegates to the `MatrixFunctor`
of `discopy.matrix` (not under `src/`), which "evaluates the circuit as a
tensor network" composing box arrays by contraction; for the zero-width
composite `Ket(x) >> Bra(x)` this is the scalar contraction of the state
array against the effect array. -/
def evalStateEffect (bits : List Bool) : ℚ :=
  dotQ (ketArray bits) (braArray bits)

/- ## Section 4: eager basis-box fusion under tensor (circuit.py 411-422, 476-488) -/

/-- Boxes involved in the tensor-dispatch of `Ket.tensor`/`Bra.tensor`:
kets, bras, and named gates. -/
inductive KBox where
  | kB (bits : List Bool)
  | bB (bits : List Bool)
  | gB (gname : String) (n : ℕ)
  deriving DecidableEq

def KBox.domW : KBox → ℕ
  | .kB _ => 0
  | .bB bits => bits.length
  | .gB _ n => n

def KBox.codW : KBox → ℕ
  | .kB bits => bits.length
  | .bB _ => 0
  | .gB _ n => n

/-- Whether a box is a `Ket` instance (the `isinstance(other, Ket)` test). -/
def KBox.isKet : KBox → Bool
  | .kB _ => true
  | _ => false

/-- Whether a box is a `Bra` instance (the `isinstance(other, Bra)` test). -/
def KBox.isBra : KBox → Bool
  | .bB _ => true
  | _ => false

/-- A generic circuit value: widths plus (box, offset) layers. -/
structure KCirc where
  dom : ℕ
  cod : ℕ
  layers : List (KBox × ℕ)
  deriving DecidableEq

/-- A box seen as the one-layer circuit it also is (`Circuit.__init__` with
`[self], [0]` inside `Ket.__init__`/`Bra.__init__`/`Gate.__init__`). -/
def boxCirc (b : KBox) : KCirc :=
  ⟨b.domW, b.codW, [(b, 0)]⟩

/-- An operand of `tensor`: either a box object (which carries its Python
class, so `isinstance` checks can see it) or a plain composite circuit. -/
inductive CircV where
  | box (b : KBox)
  | diag (c : KCirc)
  deriving DecidableEq

/-- The underlying circuit of an operand. -/
def CircV.toCirc : CircV → KCirc
  | .box b => boxCirc b
  | .diag c => c

/-- Modelled from the spec: the generic `Diagram.tensor` of the base algebra
(`discopy.rigidcat`, not under `src/`) — "tensor(f, g) (always legal,
concatenates layers with offset shift)": the second operand's offsets are
shifted by the first operand's codomain width. -/
def tensorGeneric (f g : KCirc) : KCirc :=
  ⟨f.dom + g.dom, f.cod + g.cod,
    f.layers ++ g.layers.map (fun p => (p.1, p.2 + f.cod))⟩

/-- `Ket.tensor` / `Bra.tensor` dispatch (circuit.py lines 411-422 and
476-488): a `Ket` tensored with a `Ket` fuses into one `Ket` on the
concatenated bitstring, a `Bra` with a `Bra` likewise; every other pairing
falls through to the generic `Diagram.tensor`. -/
def tensorV : CircV → CircV → CircV
  | .box (.kB bs), .box (.kB cs) => .box (.kB (bs ++ cs))
  | .box (.bB bs), .box (.bB cs) => .box (.bB (bs ++ cs))
  | a, b => .diag (tensorGeneric a.toCirc b.toCirc)

/-- The identity circuit `Id(n)` (circuit.py lines 314-326): no layers. -/
def idK (n : ℕ) : KCirc :=
  ⟨n, n, []⟩

/- ## Section 5: the `Gate` box/circuit dual structure (circuit.py 343-393) -/

/-- A `Gate` as built by `Gate.__init__`: name, qubit count, flat array, and
the tri-state dagger flag (`None` marking self-inverse gates). -/
structure GateBox where
  gname : String
  nQubits : ℕ
  arr : List ℚ
  dagFlag : Option Bool
  deriving DecidableEq

/-- Domain width set by `Box.__init__(self, name, PRO(n_qubits), PRO(n_qubits))`. -/
def GateBox.domW (g : GateBox) : ℕ := g.nQubits

/-- Codomain width set by the same call. -/
def GateBox.codW (g : GateBox) : ℕ := g.nQubits

/-- A one-layer circuit over `GateBox` boxes, as produced by
`Circuit.__init__(self, n_qubits, n_qubits, [self], [0])`. -/
structure GateCirc where
  dom : ℕ
  cod : ℕ
  boxes : List GateBox
  offsets : List ℕ
  deriving DecidableEq

/-- The circuit a `Gate` simultaneously is: `Circuit.__init__` is called with
`(n_qubits, n_qubits, [self], [0])`. -/
def GateBox.circuit (g : GateBox) : GateCirc :=
  ⟨g.nQubits, g.nQubits, [g], [0]⟩

/-- `Gate.dagger` (circuit.py lines 383-393): same name, `len(self.dom)`
qubits, same array, and `_dagger` flipped unless it is `None`. -/
def GateBox.dagger (g : GateBox) : GateBox :=
  ⟨g.gname, g.nQubits, g.arr, g.dagFlag.map (fun b => !b)⟩

/- ## Section 6: `Circuit.random` (circuit.py 279-311) -/

/-- An element of the `gateset` argument: either the class `Rx`, the class
`Rz` (tested with `gate is Rx or gate is Rz`), or a fixed gate instance. -/
inductive GEl where
  | rxC
  | rzC
  | fixed (g : TGate)
  deriving DecidableEq

/-- The filter used when one qubit is left
(`g is Rx or g is Rz or len(g.dom) == 1`). -/
def GEl.fitsOne : GEl → Bool
  | .rxC => true
  | .rzC => true
  | .fixed g => g.arity = 1

/-- Whether a gate of the produced circuit is "a gate from the supplied
gateset": an instance of the class `Rx`/`Rz`, or equal to a fixed element. -/
def GEl.covers : GEl → TGate → Bool
  | .rxC, .rx _ => true
  | .rzC, .rz _ => true
  | .fixed g, g' => g = g'
  | _, _ => false

/-- The seeded random source `rand` after `rand.seed(seed)`: a stream of
floats for `rand.random()` and a stream of indices for `rand.choice`
(reduced modulo the list length), with the two cursors. -/
structure RSt where
  floats : ℕ → ℚ
  picks : ℕ → ℕ
  fpos : ℕ
  cpos : ℕ

/-- One call of `rand.random()`. -/
def randFloat (st : RSt) : ℚ × RSt :=
  (st.floats st.fpos, ⟨st.floats, st.picks, st.fpos + 1, st.cpos⟩)

/-- One call of `rand.choice(l)`; `none` models the `IndexError` on an
empty sequence. -/
def randChoice {α : Type} (l : List α) (st : RSt) : Option (α × RSt) :=
  match h : l with
  | [] => none
  | _ :: _ =>
    some (l.get ⟨st.picks st.cpos % l.length, by
        simp [h, Nat.mod_lt, Nat.succ_pos]⟩,
      ⟨st.floats, st.picks, st.fpos, st.cpos + 1⟩)

/-- Turning a chosen gateset element into a gate: the classes `Rx`/`Rz` are
instantiated on a fresh `rand.random()` phase
(`if gate is Rx or gate is Rz: gate = gate(rand.random())`). -/
def elToGate (e : GEl) (st : RSt) : TGate × RSt :=
  match e with
  | .rxC => let (p, st') := randFloat st; (.rx p, st')
  | .rzC => let (p, st') := randFloat st; (.rz p, st')
  | .fixed g => (g, st)

/-- The inner `while n_affected < n_qubits` loop of `Circuit.random`: build
one line of the tiling, choosing from the full gateset while more than one
qubit remains and from the single-qubit-compatible subset otherwise; each
chosen gate is laid at offset `n_affected`.  Fuel bounds the iterations
(every supported gate affects at least one qubit, so `n_qubits` iterations
suffice); `none` models a raised `IndexError` on an empty choice pool. -/
def lineLoop (gateset : List GEl) (nQubits : ℕ) :
    ℕ → ℕ → RSt → List (TGate × ℕ) → Option (List (TGate × ℕ) × RSt)
  | fuel, nAffected, st, acc =>
    if nAffected < nQubits then
      match fuel with
      | 0 => none
      | fuel' + 1 =>
        let pool := if 1 < nQubits - nAffected then gateset
          else gateset.filter GEl.fitsOne
        match randChoice pool st with
        | none => none
        | some (e, st') =>
          let (g, st'') := elToGate e st'
          lineLoop gateset nQubits fuel' (nAffected + g.arity) st''
            (acc ++ [(g, nAffected)])
    else some (acc, st)

/-- The outer `for _ in range(depth)` loop of `Circuit.random`: each pass
composes one full line onto the result. -/
def depthLoop (gateset : List GEl) (nQubits : ℕ) :
    ℕ → RSt → List (TGate × ℕ) → Option (List (TGate × ℕ) × RSt)
  | 0, st, acc => some (acc, st)
  | d + 1, st, acc =>
    match lineLoop gateset nQubits nQubits 0 st [] with
    | none => none
    | some (line, st') => depthLoop gateset nQubits d st' (acc ++ line)

/-- `Circuit.random` (circuit.py lines 279-311): for `n_qubits == 1` it
returns `Rx(rand.random()) >> Rz(rand.random()) >> Rx(rand.random())`
immediately; otherwise it builds the depth-by-depth tiling from the
gateset.  `none` models a raised exception in the tiling loop. -/
def randomC (nQubits depth : ℕ) (gateset : List GEl) (st : RSt) :
    Option GCircuit :=
  if nQubits = 1 then
    let (a, st1) := randFloat st
    let (b, st2) := randFloat st1
    let (c, _) := randFloat st2
    some ⟨1, [(.rx a, 0), (.rz b, 0), (.rx c, 0)]⟩
  else
    match depthLoop gateset nQubits depth st [] with
    | none => none
    | some (gs, _) => some ⟨nQubits, gs⟩

/- ## Section 7: the translation layer of `src/discopy/tk.py`

The quantum translation works over boxes of `discopy.quantum` (`Rx`, `Rz`,
`CRz`, `Measure`, the named gates) and `TketCircuit` commands carrying an op,
qubit indices and bit indices, plus the recorded `post_selection` map from
classical-bit index to expected value. -/

/-- Python errors surfaced by the translation layer. -/
inductive PyErr where
  | nameErr (s : String)
  | notImplementedErr
  deriving DecidableEq

/-- A pytket op as seen by `from_tk.box_from_tk` / emitted by
`to_tk.add_gate`: the `op.type.name` together with `op.params`. -/
inductive QOp where
  | measureOp
  | rxOp (q : ℚ)
  | rzOp (q : ℚ)
  | crzOp (q : ℚ)
  | namedOp (s : String)
  deriving DecidableEq

/-- A `discopy.quantum` box on the quantum side of the translation. -/
inductive QBox where
  | measureB
  | rxB (p : ℚ)
  | rzB (p : ℚ)
  | crzB (p : ℚ)
  | namedB (s : String)
  deriving DecidableEq

/-- A `TketCircuit` command: op, qubit indices, bit indices. -/
structure QCmd where
  op : QOp
  qubits : List ℕ
  bits : List ℕ
  deriving DecidableEq

/-- Modelled from the spec: the names of the fixed named gates (the `gates`
list imported from `discopy.quantum`, not under `src/`), the "fixed named
single/two-wire unitary boxes (the generating set)" which double as the
named instruction methods of the backend circuit object. -/
def tkGateNames : List String :=
  ["SWAP", "CX", "H", "S", "T", "X", "Y", "Z"]

/-- `from_tk.box_from_tk` (tk.py lines 196-209): `Measure` maps to a
`Measure()` box, the rotations divide their parameter by two, a known name
maps to the gate of that name, anything else raises `NotImplementedError`. -/
def boxFromTk : QOp → Except PyErr QBox
  | .measureOp => .ok .measureB
  | .rxOp q => .ok (.rxB (q / 2))
  | .rzOp q => .ok (.rzB (q / 2))
  | .crzOp q => .ok (.crzB (q / 2))
  | .namedOp s =>
    if s ∈ tkGateNames then .ok (.namedB s) else .error .notImplementedErr

/-- The measurement override in the main loop of `from_tk` (tk.py lines
232-237), faithfully: when the lowered box is `Measure()`, a recorded
post-selection constraint on `tk_gate.bits[0]` reaches
`Bra(post_selection[...])` whose free variable `post_selection` is unbound
in `from_tk` (the attribute lives on `tk_circuit`), so Python raises
`NameError`; an unconstrained measurement hits the explicit
`raise NotImplementedError`. -/
def lowerMeasure (ps : List (ℕ × ℕ)) (cmd : QCmd) (box : QBox) :
    Except PyErr QBox :=
  if box = .measureB then
    if (ps.lookup cmd.bits.headI).isSome then
      .error (.nameErr "post_selection")
    else
      .error .notImplementedErr
  else .ok box

/-- Description of one bridging-swap block synthesised by
`from_tk.make_units_adjacent` (the `Circuit.swap` payload over the cod
slices is abstracted to its source/target indices; only the branch
structure matters for the claims below). -/
structure SwapSeg where
  src : ℕ
  tgt : ℕ
  deriving DecidableEq

/-- The loop of `from_tk.make_units_adjacent` (tk.py lines 211-229) over
`tk_gate.qubits[1:]`, faithfully: with `source = tk_qubit.index[0]` and
`target = offset + i + 1`, the `if source < target` branch records a swap
block and decrements `offset` when `source <= offset`; otherwise Python
evaluates the condition of `elif souce > target:` and raises `NameError`
on the undefined name `souce` (so the `else: continue` arm for already
adjacent units is unreachable). -/
def makeUnitsAdjacentLoop :
    List ℕ → ℕ → ℕ → List SwapSeg → Except PyErr (ℕ × List SwapSeg)
  | [], _, off, acc => .ok (off, acc)
  | q :: rest, i, off, acc =>
    let target := off + i + 1
    if q < target then
      let off' := if q ≤ off then off - 1 else off
      makeUnitsAdjacentLoop rest (i + 1) off' (acc ++ [⟨q, target⟩])
    else .error (.nameErr "souce")

/-- `from_tk.make_units_adjacent` on a command's qubit list: starts from
`offset = tk_gate.qubits[0].index[0]` with no swaps. -/
def makeUnitsAdjacent (qs : List ℕ) : Except PyErr (ℕ × List SwapSeg) :=
  makeUnitsAdjacentLoop qs.tail 0 qs.headI []

/-- The per-command body of the main loop of `from_tk` (tk.py lines
231-240): lower the op to a box, apply the measurement override, then make
the units adjacent; on success the command contributes the box, its offset
and the bridging swaps (the circuit is then extended by
`swaps >> Id(left) @ box @ Id(right) >> swaps[::-1]`). -/
def lowerCommand (ps : List (ℕ × ℕ)) (cmd : QCmd) :
    Except PyErr (QBox × ℕ × List SwapSeg) := do
  let box ← boxFromTk cmd.op
  let box ← lowerMeasure ps cmd box
  let (off, sws) ← makeUnitsAdjacent cmd.qubits
  return (box, off, sws)

/-- The main loop of `from_tk` over `tk_circuit.get_commands()`: the
lowered contributions in order, with the first raised exception
propagated. -/
def fromTkLower (ps : List (ℕ × ℕ)) :
    List QCmd → Except PyErr (List (QBox × ℕ × List SwapSeg))
  | [] => .ok []
  | cmd :: rest => do
    let l ← lowerCommand ps cmd
    let ls ← fromTkLower ps rest
    return l :: ls

/-- `to_tk.add_gate` (tk.py lines 144-154): a rotation box dispatches on
the first two (`Rx`/`Rz`) or three (`CRz`) characters of its name with
parameter `2 * box.phase`; any other box with a matching backend method is
emitted by name, else `NotImplementedError`.  (`Measure`/`Bra`/`Ket` boxes
never reach `add_gate`: the main loop of `to_tk` dispatches them to the
preparation/measurement handlers first.) -/
def addGateOp : QBox → Except PyErr QOp
  | .rxB p => .ok (.rxOp (2 * p))
  | .rzB p => .ok (.rzOp (2 * p))
  | .crzB p => .ok (.crzOp (2 * p))
  | .namedB s =>
    if s ∈ tkGateNames then .ok (.namedOp s) else .error .notImplementedErr
  | .measureB => .error .notImplementedErr

/- ## Theorems -/

theorem dotQ_cons (x y : ℚ) (xs ys : List ℚ) :
    dotQ (x :: xs) (y :: ys) = x * y + dotQ xs ys := by
  simp [dotQ]

theorem dotQ_append (as bs as' bs' : List ℚ) (h : as.length = bs.length) :
    dotQ (as ++ as') (bs ++ bs') = dotQ as bs + dotQ as' bs' := by
  induction as generalizing bs with
  | nil =>
    cases bs with
    | nil => simp [dotQ]
    | cons b bs => simp at h
  | cons a as ih =>
    cases bs with
    | nil => simp at h
    | cons b bs =>
      simp only [List.cons_append, dotQ_cons]
      rw [ih bs (by simpa using h)]
      ring

theorem dotQ_map_mul_self (x : ℚ) (ys : List ℚ) :
    dotQ (ys.map (fun y => x * y)) (ys.map (fun y => x * y))
      = x * x * dotQ ys ys := by
  induction ys with
  | nil => simp [dotQ]
  | cons y ys ih =>
    simp only [List.map_cons, dotQ_cons]
    rw [ih]
    ring

theorem dotQ_kron_self (xs ys : List ℚ) :
    dotQ (kron xs ys) (kron xs ys) = dotQ xs xs * dotQ ys ys := by
  induction xs with
  | nil => simp [kron, dotQ]
  | cons x xs ih =>
    simp only [kron]
    rw [dotQ_append _ _ _ _ (by simp), dotQ_map_mul_self, ih, dotQ_cons]
    ring

theorem ketArray_foldl_selfdot (bits : List Bool) :
    ∀ m : List ℚ,
      dotQ (bits.foldl (fun m b => kron m (if b then [0, 1] else [1, 0])) m)
        (bits.foldl (fun m b => kron m (if b then [0, 1] else [1, 0])) m)
      = dotQ m m := by
  induction bits with
  | nil => intro m; rfl
  | cons b bs ih =>
    intro m
    simp only [List.foldl_cons]
    rw [ih, dotQ_kron_self]
    cases b <;> simp [dotQ]

/-- C7: for every bitstring `x`, composing the state box `Ket(x)` with the
effect box `Bra(x)` and evaluating the resulting zero-width circuit as a
tensor network yields the scalar 1. -/
theorem C7_state_effect_adjunction (bits : List Bool) :
    evalStateEffect bits = 1 := by
  unfold evalStateEffect braArray ketArray
  rw [ketArray_foldl_selfdot]
  simp [dotQ]

/-- C8 counterexample: tensoring the basis box `Ket(1)` with the identity
circuit `Id(1)` — which is not a same-orientation basis box — produces a
one-layer circuit, not the two-layer circuit the claim asserts for
"anything that is not a same-orientation basis box". -/
theorem C8_counterexample :
    (tensorV (.box (.kB [true])) (.diag (idK 1))).toCirc.layers.length = 1 ∧
    (1 : ℕ) ≠ 2 := by
  exact ⟨rfl, by decide⟩

/-- C8 (amended): `Ket(x) @ Ket(y) == Ket(x ++ y)` and
`Bra(x) @ Bra(y) == Bra(x ++ y)`, fused eagerly at tensor time; tensoring a
basis box with any box that is not a same-orientation basis box produces an
ordinary two-layer circuit (tensoring with a non-box circuit instead
concatenates that circuit's layers after the basis box's single layer). -/
theorem C8_basis_box_fusion (bs cs : List Bool) (b : KBox) :
    tensorV (.box (.kB bs)) (.box (.kB cs)) = .box (.kB (bs ++ cs)) ∧
    tensorV (.box (.bB bs)) (.box (.bB cs)) = .box (.bB (bs ++ cs)) ∧
    (b.isKet = false →
      (tensorV (.box (.kB bs)) (.box b)).toCirc.layers.length = 2) ∧
    (b.isBra = false →
      (tensorV (.box (.bB bs)) (.box b)).toCirc.layers.length = 2) := by
  refine ⟨rfl, rfl, ?_, ?_⟩
  · intro hk
    cases b with
    | kB _ => simp [KBox.isKet] at hk
    | bB _ => rfl
    | gB _ _ => rfl
  · intro hb
    cases b with
    | kB _ => rfl
    | bB _ => simp [KBox.isBra] at hb
    | gB _ _ => rfl

theorem C8_basis_box_fusion_witness :
    tensorV (.box (.kB [true])) (.box (.kB [false]))
        = .box (.kB ([true] ++ [false])) ∧
    tensorV (.box (.bB [true])) (.box (.bB [false]))
        = .box (.bB ([true] ++ [false])) ∧
    ((KBox.gB "X" 1).isKet = false →
      (tensorV (.box (.kB [true])) (.box (.gB "X" 1))).toCirc.layers.length = 2) ∧
    ((KBox.gB "X" 1).isBra = false →
      (tensorV (.box (.bB [true])) (.box (.gB "X" 1))).toCirc.layers.length = 2) :=
  C8_basis_box_fusion [true] [false] (.gB "X" 1)

/-- C10: every `Gate` built with wire count `n` has domain width and
codomain width both `n`, and is simultaneously the one-layer circuit
containing exactly itself at offset 0; the same square-shape invariant
holds for its dagger. -/
theorem C10_gate_square_invariant (nm : String) (n : ℕ) (arr : List ℚ)
    (flag : Option Bool) :
    (GateBox.mk nm n arr flag).domW = n ∧
    (GateBox.mk nm n arr flag).codW = n ∧
    (GateBox.mk nm n arr flag).circuit
      = ⟨n, n, [GateBox.mk nm n arr flag], [0]⟩ ∧
    (GateBox.mk nm n arr flag).dagger.domW = n ∧
    (GateBox.mk nm n arr flag).dagger.codW = n ∧
    (GateBox.mk nm n arr flag).dagger.circuit
      = ⟨n, n, [(GateBox.mk nm n arr flag).dagger], [0]⟩ :=
  ⟨rfl, rfl, rfl, rfl, rfl, rfl⟩

/-- C2: code bug.  On the diagram with boxes `X` at offset 0 then `Ket(0)`
at offset 1 on one input wire, `interchange(1, 0)` is legal and moves the
ket one layer toward the input boundary — but `move_ket` discards the
interchanged diagram and returns the original diagram unchanged (with the
decremented position), so the yielded diagram does not have the box moved
as the claim states. -/
theorem C2_move_ket_discards_interchange :
    interchange ⟨1, [(NBox.ngate "X" 1 [0, 1, 1, 0], 0), (NBox.ket [false], 1)]⟩ 1
      = some ⟨1, [(NBox.ket [false], 1), (NBox.ngate "X" 1 [0, 1, 1, 0], 0)]⟩ ∧
    moveKet ⟨1, [(NBox.ngate "X" 1 [0, 1, 1, 0], 0), (NBox.ket [false], 1)]⟩ 1
      = (⟨1, [(NBox.ngate "X" 1 [0, 1, 1, 0], 0), (NBox.ket [false], 1)]⟩, 0) ∧
    (⟨1, [(NBox.ngate "X" 1 [0, 1, 1, 0], 0), (NBox.ket [false], 1)]⟩ : NDiagram)
      ≠ ⟨1, [(NBox.ket [false], 1), (NBox.ngate "X" 1 [0, 1, 1, 0], 0)]⟩ := by
  refine ⟨rfl, rfl, ?_⟩
  intro h
  simp [NDiagram.mk.injEq] at h

/-- C4: code bug.  Lowering a `Measure` command in `from_tk` raises in both
cases instead of producing a box: with a recorded post-selection constraint
on its classical bit it dereferences the undefined name `post_selection`
(`NameError`), and without one it hits the explicit
`raise NotImplementedError` — it never lowers to `Bra` or `Measure`. -/
theorem C4_measure_lowering_raises :
    lowerCommand [(0, 0)] ⟨.measureOp, [0], [0]⟩
      = .error (.nameErr "post_selection") ∧
    lowerCommand [] ⟨.measureOp, [0], [0]⟩ = .error .notImplementedErr :=
  ⟨rfl, rfl⟩

/-- C6: on a physical circuit whose `CX` command has qubits `[0, 2]` — the
later qubit lies strictly above the adjacent target, the side handled by
the second branch of `make_units_adjacent` — `from_tk` fails with a
`NameError` on the undefined name `souce` instead of synthesizing the
bridging swaps, so the reverse translation is not total. -/
theorem C6_souce_undefined_reference :
    fromTkLower [] [⟨.namedOp "CX", [0, 2], []⟩] = .error (.nameErr "souce") :=
  rfl

/-- C3 counterexample: the forward translation `Circuit.to_tk` of
circuit.py emits the rotation `Rx(0.25)` with op parameter `0.25`, not
`2 * 0.25` — exactly as its own doctest records
(`(OpType.Rx, [0.25])`) — so the claim's "emits the corresponding physical
rotation instruction with parameter 2*p" fails on this forward
translation. -/
theorem C3_counterexample :
    (toTk ⟨1, [(.rx (1/4), 0)]⟩).cmds = [⟨.rx (1/4), [0]⟩] ∧
    (1/4 : ℚ) ≠ 2 * (1/4) := by
  refine ⟨rfl, by norm_num⟩

/-- C3 (amended): the factor-of-two conversion lives in the
`discopy/tk.py` translation: its `add_gate` emits rotations with parameter
`2 * phase` and its `box_from_tk` maps a parameter `q` back to phase
`q / 2`, a consistent round trip; the legacy `circuit.py` translation
instead passes the phase through unchanged in both of its directions
(also mutually consistent). -/
theorem C3_phase_conversion (p q : ℚ) :
    addGateOp (.rxB p) = .ok (.rxOp (2 * p)) ∧
    addGateOp (.rzB p) = .ok (.rzOp (2 * p)) ∧
    boxFromTk (.rxOp q) = .ok (.rxB (q / 2)) ∧
    boxFromTk (.rzOp q) = .ok (.rzB (q / 2)) ∧
    boxFromTk (.rxOp (2 * p)) = .ok (.rxB p) ∧
    toTk ⟨1, [(.rx p, 0)]⟩ = ⟨1, [⟨.rx p, [0]⟩]⟩ ∧
    gatesFromTk (.rx q) = .rx q := by
  refine ⟨rfl, rfl, rfl, rfl, ?_, rfl, rfl⟩
  have h : 2 * p / 2 = p := by ring
  simp [boxFromTk, h]

/-- C9 counterexample: with the supplied gateset `[Rx]` (and any seeded
source, here the constant stream 1/3), `Circuit.random(1, 3, [Rx])` returns
`Rx(1/3) >> Rz(1/3) >> Rx(1/3)`, which does contain a gate from the
supplied gateset — an `Rx` instance — so "the result never contains a gate
from the supplied gateset" is false. -/
theorem C9_counterexample :
    randomC 1 3 [GEl.rxC] ⟨fun _ => (1 : ℚ)/3, fun _ => 0, 0, 0⟩
      = some ⟨1, [(.rx (1/3), 0), (.rz (1/3), 0), (.rx (1/3), 0)]⟩ ∧
    GEl.covers GEl.rxC (.rx (1/3)) = true :=
  ⟨rfl, rfl⟩

/-- C9 (amended): for `n_qubits == 1`, `Circuit.random` returns exactly the
three-layer Euler decomposition `Rx(a) >> Rz(b) >> Rx(c)` with the phases
drawn in order from the seeded random source, completely ignoring the
`depth` and `gateset` arguments; the result consists solely of `Rx` and
`Rz` rotations, so it contains a gate from the supplied gateset only when
that gateset includes the rotation classes `Rx` or `Rz`. -/
theorem C9_random_single_qubit (depth : ℕ) (gateset : List GEl) (st : RSt) :
    randomC 1 depth gateset st
      = some ⟨1, [(.rx (st.floats st.fpos), 0),
                  (.rz (st.floats (st.fpos + 1)), 0),
                  (.rx (st.floats (st.fpos + 2)), 0)]⟩ :=
  rfl

theorem scalarPhaseAux_all_scalars (dm : ℕ) :
    ∀ (ls : List (NBox × ℕ)) (s : ℚ),
      (∀ p ∈ ls, p.1.domW = 0 ∧ p.1.codW = 0) →
      (scalarPhaseAux ls.length ⟨dm, ls⟩ s).1.length = ls.length ∧
      (scalarPhaseAux ls.length ⟨dm, ls⟩ s).2.1 = ⟨dm, []⟩ ∧
      (scalarPhaseAux ls.length ⟨dm, ls⟩ s).2.2
        = s * (ls.map (fun p => p.1.value)).prod ∧
      (ls ≠ [] →
        (scalarPhaseAux ls.length ⟨dm, ls⟩ s).1.getLast?
          = some (⟨dm, []⟩, s * (ls.map (fun p => p.1.value)).prod)) := by
  intro ls
  induction ls with
  | nil =>
    intro s _
    refine ⟨rfl, rfl, by simp [scalarPhaseAux], by simp⟩
  | cons p rest ih =>
    intro s h
    have hp := h p (List.mem_cons_self p rest)
    have hrest : ∀ q ∈ rest, q.1.domW = 0 ∧ q.1.codW = 0 :=
      fun q hq => h q (List.mem_cons_of_mem p hq)
    have hrm : removeScalars ⟨dm, p :: rest⟩ = some (⟨dm, rest⟩, p.1.value) := by
      simp [removeScalars, removeScalarsAux, hp.1, hp.2]
    have ihs := ih (s * p.1.value) hrest
    have hstep :
        scalarPhaseAux (p :: rest).length ⟨dm, p :: rest⟩ s
          = ((⟨dm, rest⟩, s * p.1.value)
              :: (scalarPhaseAux rest.length ⟨dm, rest⟩ (s * p.1.value)).1,
             (scalarPhaseAux rest.length ⟨dm, rest⟩ (s * p.1.value)).2) := by
      simp only [List.length_cons, scalarPhaseAux, hrm]
    rw [hstep]
    refine ⟨by simpa using ihs.1, ihs.2.1, ?_, ?_⟩
    · rw [show ((⟨dm, rest⟩, s * p.1.value)
          :: (scalarPhaseAux rest.length ⟨dm, rest⟩ (s * p.1.value)).1,
          (scalarPhaseAux rest.length ⟨dm, rest⟩ (s * p.1.value)).2).2.2
          = (scalarPhaseAux rest.length ⟨dm, rest⟩ (s * p.1.value)).2.2 from rfl]
      rw [ihs.2.2.1]
      simp [mul_assoc]
    · intro _
      by_cases hne : rest = []
      · subst hne
        simp [scalarPhaseAux, mul_assoc]
      · have hlast := ihs.2.2.2 hne
        rw [List.getLast?_cons, hlast]
        simp [mul_assoc]

/-- C5: for a diagram whose only non-identity content is zero-to-zero-width
scalar boxes, the scalar-extraction phase of `normalize` yields once per
removed box, ends with the empty (identity) diagram, accumulates exactly
the product of the removed boxes' values, and its final yielded pair is
that empty diagram with that product (the subsequent basis-box-migration
loop performs no iteration on the box-free residual, so the sequence is
exhausted). -/
theorem C5_scalar_extraction (d : NDiagram)
    (h : ∀ p ∈ d.layers, p.1.domW = 0 ∧ p.1.codW = 0) :
    (scalarPhase d).1.length = d.layers.length ∧
    (scalarPhase d).2.1 = ⟨d.dom, []⟩ ∧
    (scalarPhase d).2.2 = (d.layers.map (fun p => p.1.value)).prod ∧
    (d.layers ≠ [] →
      (scalarPhase d).1.getLast?
        = some (⟨d.dom, []⟩, (d.layers.map (fun p => p.1.value)).prod)) := by
  have hx := scalarPhaseAux_all_scalars d.dom d.layers 1 h
  simpa [scalarPhase] using hx

theorem C5_scalar_extraction_witness :
    (∀ p ∈ (⟨0, [(NBox.ngate "sqrt(2)" 0 [2], 0), (NBox.ngate "w" 0 [3], 0)]⟩
        : NDiagram).layers, p.1.domW = 0 ∧ p.1.codW = 0) ∧
    ((scalarPhase ⟨0, [(NBox.ngate "sqrt(2)" 0 [2], 0),
        (NBox.ngate "w" 0 [3], 0)]⟩).1.length
      = (⟨0, [(NBox.ngate "sqrt(2)" 0 [2], 0), (NBox.ngate "w" 0 [3], 0)]⟩
        : NDiagram).layers.length ∧
    (scalarPhase ⟨0, [(NBox.ngate "sqrt(2)" 0 [2], 0),
        (NBox.ngate "w" 0 [3], 0)]⟩).2.1 = ⟨0, []⟩ ∧
    (scalarPhase ⟨0, [(NBox.ngate "sqrt(2)" 0 [2], 0),
        (NBox.ngate "w" 0 [3], 0)]⟩).2.2
      = ((⟨0, [(NBox.ngate "sqrt(2)" 0 [2], 0), (NBox.ngate "w" 0 [3], 0)]⟩
        : NDiagram).layers.map (fun p => p.1.value)).prod ∧
    ((⟨0, [(NBox.ngate "sqrt(2)" 0 [2], 0), (NBox.ngate "w" 0 [3], 0)]⟩
        : NDiagram).layers ≠ [] →
      (scalarPhase ⟨0, [(NBox.ngate "sqrt(2)" 0 [2], 0),
          (NBox.ngate "w" 0 [3], 0)]⟩).1.getLast?
        = some (⟨0, []⟩, ((⟨0, [(NBox.ngate "sqrt(2)" 0 [2], 0),
            (NBox.ngate "w" 0 [3], 0)]⟩
          : NDiagram).layers.map (fun p => p.1.value)).prod))) :=
  ⟨by decide,
    C5_scalar_extraction
      ⟨0, [(NBox.ngate "sqrt(2)" 0 [2], 0), (NBox.ngate "w" 0 [3], 0)]⟩
      (by decide)⟩

theorem fromTkCmd_toTkCmd (g : TGate) (o : ℕ) :
    fromTkCmd (toTkCmd (g, o)) = [(g, o)] := by
  cases g <;>
    simp [toTkCmd, fromTkCmd, TGate.arity, adjacencyLoop, gatesFromTk,
      List.range_succ]

theorem fromTkCmds_map_toTkCmd (gs : List (TGate × ℕ)) :
    fromTkCmds (gs.map toTkCmd) = gs := by
  induction gs with
  | nil => rfl
  | cons p rest ih =>
    cases p with
    | mk g o => simp [fromTkCmds, fromTkCmd_toTkCmd, ih]

/-- C1: for every well-formed circuit over the supported gate set,
`from_tk(to_tk(c))` is `c` itself — `to_tk` emits every gate on adjacent
ascending qubit indices, so `from_tk` inserts no swaps and rebuilds the
same gates at the same offsets — and hence its normalization (under any
normalization function whatsoever) equals the normalization of `c`. -/
theorem C1_tk_round_trip (c : GCircuit) (hwf : c.wf)
    (norm : GCircuit → GCircuit) :
    fromTk (toTk c) = c ∧ norm (fromTk (toTk c)) = norm c := by
  have h : fromTk (toTk c) = c := by
    cases c with
    | mk n gs => simp [fromTk, toTk, fromTkCmds_map_toTkCmd]
  exact ⟨h, by rw [h]⟩

theorem C1_tk_round_trip_witness :
    (⟨2, [(TGate.cx, 0), (TGate.rx (1/2), 1)]⟩ : GCircuit).wf ∧
    (fromTk (toTk ⟨2, [(TGate.cx, 0), (TGate.rx (1/2), 1)]⟩)
        = ⟨2, [(TGate.cx, 0), (TGate.rx (1/2), 1)]⟩ ∧
      id (fromTk (toTk ⟨2, [(TGate.cx, 0), (TGate.rx (1/2), 1)]⟩))
        = id ⟨2, [(TGate.cx, 0), (TGate.rx (1/2), 1)]⟩) :=
  ⟨by decide,
    C1_tk_round_trip ⟨2, [(TGate.cx, 0), (TGate.rx (1/2), 1)]⟩ (by decide) id⟩
